import Mathlib

/-!
Shallow embedding of the vvector container (src/vvector.c) for checking the
natural-language specification against the code.

Modelling conventions:
  * `ptrdiff_t` values (capacity, length, element_size, indices, sizes) are `Int`.
    On the modelled LP64 platform `sizeof(struct vvectorMetadata_) = 24` and
    `sizeof(struct vvectorAlloc) = 32`.
  * An element value is the list of bytes (`List Nat`) the caller's `value`
    pointer points to; a `memcpy`/`memmove` of `element_size` bytes from it is
    modelled by `List.take` of that many bytes.  A null `value` pointer is
    `none`.
  * The buffer is a record: the metadata block, the (physically present or
    absent) allocator-descriptor block, and the element region restricted to
    its defined prefix (the `length` live elements; bytes past them are
    indeterminate in C and carry no information).
  * Function pointers are modelled as `Nat` names, `0` standing for the C null
    pointer; the three library defaults get the distinct nonzero names
    `LIB_MALLOC`, `LIB_FREE`, `LIB_REALLOC`.
  * The handle is `VState`: `invalid` models a null handle or a nulled buffer
    pointer (`!vec || !*vec`); `undef` marks a path where the C code performs
    an out-of-bounds access or dereferences a null pointer, i.e. undefined
    behaviour the embedding does not describe further.
  * Calls into the active reallocate function are modelled by a `Bool`
    argument (`true` = the call returns a fresh non-null block with the old
    contents, `false` = it returns NULL leaving the old block allocated, the
    standard `realloc` contract).  Operations additionally return a `Bool`
    recording whether any allocator function was invoked, so that
    "observable via an allocator that counts invocations" properties can be
    stated.
  * C `ptrdiff_t` division/modulo truncate toward zero, so the embedding uses
    `Int.tdiv` / `Int.tmod`.
-/

def NR_ELEM_IN_PAGE : Int := 32

def VEC_ENOVEC : Int := 1

def VEC_EBADINDEX : Int := 2

def VEC_ENOVALUE : Int := 3

/-- Byte size of `struct vvectorMetadata_` (three `ptrdiff_t` fields, LP64). -/
def META_SIZE : Int := 24

/-- Byte size of `struct vvectorAlloc` (four pointer fields, LP64). -/
def ALLOC_SIZE : Int := 32

/-- Model address of `vvector_lib_malloc`. -/
def LIB_MALLOC : Nat := 1

/-- Model address of `vvector_lib_free`. -/
def LIB_FREE : Nat := 2

/-- Model address of `vvector_lib_realloc`. -/
def LIB_REALLOC : Nat := 3

/-- `struct vvectorAlloc`: three function pointers plus the context pointer,
modelled as `Nat` names with `0` = null. -/
structure vvectorAlloc where
  malloc_fn : Nat
  free_fn : Nat
  realloc_fn : Nat
  ctx : Nat
deriving DecidableEq, Repr

/-- `struct vvectorMetadata_`: the three signed fields at the start of the
buffer.  The sign of `element_size` doubles as the custom-allocator flag. -/
structure vvectorMetadata where
  capacity : Int
  length : Int
  element_size : Int
deriving DecidableEq, Repr

/-- The single heap buffer of a container: metadata, the allocator-descriptor
block when one was written at creation, and the defined prefix of the element
region (one byte list per live element). -/
structure Buffer where
  meta : vvectorMetadata
  allocBlock : Option vvectorAlloc
  data : List (List Nat)
deriving DecidableEq, Repr

/-- The handle-level state.  `invalid` models `!vec || !*vec`; `undef` models
a path on which the C code commits undefined behaviour (out-of-bounds write or
null-buffer dereference), about which the embedding makes no further claim. -/
inductive VState where
  | invalid : VState
  | undef : VState
  | valid : Buffer → VState
deriving DecidableEq, Repr

/-- `get_meta`: the metadata block is a record field in the model. -/
def get_meta (b : Buffer) : vvectorMetadata := b.meta

/-- `vec_get_element_size`: absolute value of the raw field. -/
def vec_get_element_size (b : Buffer) : Int :=
  if (get_meta b).element_size < 0 then -(get_meta b).element_size
  else (get_meta b).element_size

/-- `vec_get_capacity`. -/
def vec_get_capacity (b : Buffer) : Int := (get_meta b).capacity

/-- `length_to_pages`: `ceil` via truncating division, exactly as the C. -/
def length_to_pages (len nr_elem_in_page : Int) : Int :=
  if Int.tmod len nr_elem_in_page = 0 then Int.tdiv len nr_elem_in_page
  else Int.tdiv len nr_elem_in_page + 1

/-- `has_custom_alloc`: sign test on the raw `element_size`. -/
def has_custom_alloc (b : Buffer) : Bool := (get_meta b).element_size < 0

/-- `getLengthOfMetadata`: header size, depending on the sign flag. -/
def getLengthOfMetadata (b : Buffer) : Int :=
  if (get_meta b).element_size < 0 then META_SIZE + ALLOC_SIZE else META_SIZE

/-- `nr_pages_available`. -/
def nr_pages_available (b : Buffer) : Int :=
  Int.tdiv (Int.tdiv (vec_get_capacity b - getLengthOfMetadata b) (vec_get_element_size b))
    NR_ELEM_IN_PAGE

/-- `nr_pages_used`. -/
def nr_pages_used (b : Buffer) : Int :=
  length_to_pages (get_meta b).length NR_ELEM_IN_PAGE

/-- `has_empty_pages`. -/
def has_empty_pages (b : Buffer) : Bool :=
  ¬ (nr_pages_available b - nr_pages_used b = 0)

/-- `get_alloc`: the descriptor block, only when the flag says it is there. -/
def get_alloc (b : Buffer) : Option vvectorAlloc :=
  if has_custom_alloc b then b.allocBlock else none

/-- `is_full`: capacity exactly equals bytes for current length plus header. -/
def is_full (b : Buffer) : Bool :=
  vec_get_capacity b = (get_meta b).length * vec_get_element_size b + getLengthOfMetadata b

/-- `index_is_invalid`: the code only checks `index >= length`; a negative
index passes as "valid" (its own doc note says valid means in `[0, length]`). -/
def index_is_invalid (b : Buffer) (index : Int) : Bool :=
  index ≥ (get_meta b).length

/-- `get_malloc`: resolved allocate function (a `Nat` name). -/
def get_malloc (b : Buffer) : Nat :=
  if ¬ has_custom_alloc b then LIB_MALLOC
  else match b.allocBlock with
    | some a => a.malloc_fn
    | none => 0

/-- `get_free`: resolved deallocate function. -/
def get_free (b : Buffer) : Nat :=
  if ¬ has_custom_alloc b then LIB_FREE
  else match b.allocBlock with
    | some a => a.free_fn
    | none => 0

/-- `get_realloc`: resolved reallocate function. -/
def get_realloc (b : Buffer) : Nat :=
  if ¬ has_custom_alloc b then LIB_REALLOC
  else match b.allocBlock with
    | some a => a.realloc_fn
    | none => 0

/-- The context-pointer extraction pattern inlined in `add_page_if_needed`,
`vvectorShrinkToFit`, `vvectorReserve` and `vvectorFree`: the embedded `ctx`
if a descriptor is present, null (`0`) otherwise. -/
def resolve_ctx (b : Buffer) : Nat :=
  if has_custom_alloc b then
    match b.allocBlock with
    | some a => a.ctx
    | none => 0
  else 0

/-- The normalization performed once inside `vec_new_`: each null function
pointer of the supplied descriptor is individually replaced by the
corresponding library default; `ctx` is copied as-is. -/
def normalizeAlloc (d : vvectorAlloc) : vvectorAlloc :=
  { malloc_fn := if d.malloc_fn = 0 then LIB_MALLOC else d.malloc_fn
    free_fn := if d.free_fn = 0 then LIB_FREE else d.free_fn
    realloc_fn := if d.realloc_fn = 0 then LIB_REALLOC else d.realloc_fn
    ctx := d.ctx }

/-- `vvectorGetLength`: 0 on a null/invalid handle.  On the `undef` state the
C behaviour is undefined; the model returns 0 there as an arbitrary value. -/
def vvectorGetLength : VState → Int
  | VState.valid b => (get_meta b).length
  | _ => 0

/-- `vvectorIsEmpty`. -/
def vvectorIsEmpty : VState → Int
  | VState.invalid => 1
  | VState.undef => 1
  | VState.valid b => if (get_meta b).length = 0 then 1 else 0

/-- `add_page_if_needed`: grows by one page when full.  The C assigns the
reallocate result straight into `*vec` and only then null-checks it, so on
failure the prior buffer pointer is overwritten with NULL (`none` here) and
the old block is leaked.  Returns (new `*vec`, C return code, whether the
reallocate function was invoked). -/
def add_page_if_needed (b : Buffer) (reallocOk : Bool) :
    Option Buffer × Int × Bool :=
  if ¬ is_full b then (some b, 0, false)
  else if reallocOk then
    (some { b with meta := { b.meta with
        capacity := vec_get_capacity b + NR_ELEM_IN_PAGE * vec_get_element_size b } },
      0, true)
  else (none, 1, true)

/-- `vvectorShrinkToFit`.  Early no-op when there are no empty pages; on
reallocate failure `*vec` has already been nulled, so the handle becomes
invalid and 1 is returned.  Returns (state, code, reallocate invoked). -/
def vvectorShrinkToFit (s : VState) (reallocOk : Bool) : VState × Int × Bool :=
  match s with
  | VState.invalid => (VState.invalid, VEC_ENOVEC, false)
  | VState.undef => (VState.undef, 0, false)
  | VState.valid b =>
    if ¬ has_empty_pages b then (VState.valid b, 0, false)
    else
      let new_size := vec_get_capacity b -
        (nr_pages_available b - nr_pages_used b) * vec_get_element_size b * NR_ELEM_IN_PAGE
      if reallocOk then
        (VState.valid { b with meta := { b.meta with capacity := new_size } }, 0, true)
      else (VState.invalid, 1, true)

/-- `vvectorReserve`: additive growth by `length_to_pages n 32` pages.  A
negative `n` returns 1 untouched; on reallocate failure `*vec` has been
nulled and `VEC_ENOVEC` is returned.  Returns (state, code, realloc invoked). -/
def vvectorReserve (s : VState) (n : Int) (reallocOk : Bool) : VState × Int × Bool :=
  match s with
  | VState.invalid => (VState.invalid, VEC_ENOVEC, false)
  | VState.undef => (VState.undef, 0, false)
  | VState.valid b =>
    if n < 0 then (VState.valid b, 1, false)
    else
      let new_capacity :=
        length_to_pages n NR_ELEM_IN_PAGE * vec_get_element_size b * NR_ELEM_IN_PAGE +
          vec_get_capacity b
      if reallocOk then
        (VState.valid { b with meta := { b.meta with capacity := new_capacity } }, 0, true)
      else (VState.invalid, VEC_ENOVEC, true)

/-- `vec_new_`: builds the buffer and the handle.  `bufOk`/`handleOk` model
the two allocate calls succeeding; a NULL return (rejected negative size or
allocation failure) is `none`.  With a descriptor the raw `element_size` is
stored negated and the normalized descriptor is copied into the buffer. -/
def vec_new_ (sizeof_type : Int) (allocator : Option vvectorAlloc)
    (bufOk handleOk : Bool) : Option VState :=
  if sizeof_type < 0 then none
  else
    match allocator with
    | none =>
      if bufOk then
        if handleOk then
          some (VState.valid
            { meta := { capacity := META_SIZE, length := 0, element_size := sizeof_type }
              allocBlock := none
              data := [] })
        else none
      else none
    | some d =>
      let a := normalizeAlloc d
      if bufOk then
        if handleOk then
          some (VState.valid
            { meta := { capacity := META_SIZE + ALLOC_SIZE, length := 0
                        element_size := -sizeof_type }
              allocBlock := some a
              data := [] })
        else none
      else none

/-- `vvectorGetAt`: returns the byte offset of the addressed slot from the
start of the element region (`element_size * index`), or `none` for the C
NULL return.  Note the code's only range check is `index_is_invalid`, which
lets negative indices through: the returned pointer then lies before the
element region (for small element sizes, inside the header — well-defined
pointer arithmetic within the allocation, and non-null). -/
def vvectorGetAt (s : VState) (index : Int) : Option Int :=
  match s with
  | VState.valid b =>
    if index_is_invalid b index then none
    else some (vec_get_element_size b * index)
  | _ => none

/-- `vvectorInsertValueAt`.  Faithful to the C order of events: the grow step
runs before any argument validation; its failure code is ignored, after which
the code dereferences the nulled buffer (`undef`).  A negative index passes
the `index > length` check and makes the shifting `memmove` read/write out of
range (`undef`).  Returns (state, code, reallocate invoked). -/
def vvectorInsertValueAt (s : VState) (index : Int) (value : Option (List Nat))
    (reallocOk : Bool) : VState × Int × Bool :=
  match s with
  | VState.invalid => (VState.invalid, VEC_ENOVEC, false)
  | VState.undef => (VState.undef, 0, false)
  | VState.valid b =>
    match add_page_if_needed b reallocOk with
    | (none, _, called) => (VState.undef, 0, called)
    | (some b1, _, called) =>
      if index > (get_meta b1).length then (VState.valid b1, VEC_EBADINDEX, called)
      else
        match value with
        | none => (VState.valid b1, VEC_ENOVALUE, called)
        | some v =>
          if index < 0 then (VState.undef, 0, called)
          else
            let es := vec_get_element_size b1
            let i := index.toNat
            (VState.valid { b1 with
                meta := { b1.meta with length := (get_meta b1).length + 1 }
                data := b1.data.take i ++ [v.take es.toNat] ++ b1.data.drop i },
              0, called)

/-- `vvectorPushBack`: null-value pre-check, then insert at `length`. -/
def vvectorPushBack (s : VState) (value : Option (List Nat)) (reallocOk : Bool) :
    VState × Int × Bool :=
  match s with
  | VState.invalid => (VState.invalid, VEC_ENOVEC, false)
  | VState.undef => (VState.undef, 0, false)
  | VState.valid b =>
    match value with
    | none => (VState.valid b, VEC_ENOVALUE, false)
    | some v => vvectorInsertValueAt (VState.valid b) (get_meta b).length (some v) reallocOk

/-- `vvectorRemoveAt`.  A negative index passes `index_is_invalid`; when the
closing `memmove` moves `(length - index - 1) * element_size = 0` bytes no
store happens and only `length--` takes effect (this is how `remove_at(-1)`
on an empty container drives `length` to `-1`); when it would move a positive
number of bytes the destination lies before the element region and the write
is out of range (`undef`). -/
def vvectorRemoveAt (s : VState) (index : Int) : VState × Int :=
  match s with
  | VState.invalid => (VState.invalid, VEC_ENOVEC)
  | VState.undef => (VState.undef, 0)
  | VState.valid b =>
    if index_is_invalid b index then (VState.valid b, VEC_EBADINDEX)
    else
      let len := (get_meta b).length
      let es := vec_get_element_size b
      if index < 0 then
        if (len - index - 1) * es = 0 then
          (VState.valid { b with meta := { b.meta with length := len - 1 } }, 0)
        else (VState.undef, 0)
      else
        let i := index.toNat
        (VState.valid { b with
            meta := { b.meta with length := len - 1 }
            data := b.data.take i ++ b.data.drop (i + 1) }, 0)

/-- `vvectorRemoveBack`: returns the literal code `2` on an empty container,
otherwise delegates to `vvectorRemoveAt (length - 1)`. -/
def vvectorRemoveBack (s : VState) : VState × Int :=
  match s with
  | VState.invalid => (VState.invalid, VEC_ENOVEC)
  | VState.undef => (VState.undef, 0)
  | VState.valid b =>
    if vvectorIsEmpty (VState.valid b) = 1 then (VState.valid b, 2)
    else vvectorRemoveAt (VState.valid b) ((get_meta b).length - 1)

/-- `vvector_debug_get_capacity` (arbitrary 0 on the `undef` state). -/
def vvector_debug_get_capacity : VState → Int
  | VState.invalid => VEC_ENOVEC
  | VState.undef => 0
  | VState.valid b => (get_meta b).capacity

/-- Iterate `vvectorPushBack` over a list of (non-null) values.  Returns the
final state, whether every call returned 0, and whether any call invoked an
allocator function. -/
def pushAll (s : VState) (vs : List (List Nat)) (reallocOk : Bool) :
    VState × Bool × Bool :=
  match vs with
  | [] => (s, true, false)
  | v :: rest =>
    let r := vvectorPushBack s (some v) reallocOk
    let r2 := pushAll r.1 rest reallocOk
    (r2.1, (decide (r.2.1 = 0)) && r2.2.1, r.2.2 || r2.2.2)

/-- Well-formedness of a (valid) buffer: what every buffer reachable through
the API without undefined behaviour satisfies.  `data` is exactly the live
prefix, the capacity is a whole number of pages past the header, and the live
elements fit. -/
structure WF (b : Buffer) : Prop where
  data_len : (b.data.length : Int) = (get_meta b).length
  pages : ∃ k : Int, 0 ≤ k ∧
    vec_get_capacity b = getLengthOfMetadata b + k * (NR_ELEM_IN_PAGE * vec_get_element_size b)
  fits : (get_meta b).length * vec_get_element_size b ≤
    vec_get_capacity b - getLengthOfMetadata b
  alloc_some : has_custom_alloc b = true → b.allocBlock ≠ none

/-! Observers and concrete fixtures used by the theorems below. -/

/-- Observer: the buffer of a `valid` state (a junk buffer otherwise); used to
state properties of a result already asserted to be `VState.valid`. -/
def theBuffer : VState → Buffer
  | VState.valid b => b
  | _ => { meta := { capacity := 0, length := 0, element_size := 0 }, allocBlock := none, data := [] }

/-- The buffer produced by `vec_new_ t (some d)` when both allocations
succeed: header-only capacity, negated raw element size, normalized
descriptor copied in. -/
def createdWithAlloc (t : Int) (d : vvectorAlloc) : Buffer :=
  { meta := { capacity := META_SIZE + ALLOC_SIZE, length := 0, element_size := -t }
    allocBlock := some (normalizeAlloc d)
    data := [] }

/-- A default-allocator buffer with `element_size = 0` holding the elements
of `l` (each a zero-byte slot): capacity never leaves the header size. -/
def es0Buf (l : List (List Nat)) : Buffer :=
  { meta := { capacity := META_SIZE, length := (l.length : Int), element_size := 0 }
    allocBlock := none
    data := l }

/-- Fresh default-allocator container for 4-byte elements (exactly what
`vec_new_ 4 none` builds); note it is exactly full. -/
def fresh4 : Buffer :=
  { meta := { capacity := 24, length := 0, element_size := 4 }, allocBlock := none, data := [] }

/-- A container for 4-byte elements holding two elements with one page
allocated. -/
def buf2 : Buffer :=
  { meta := { capacity := 152, length := 2, element_size := 4 }, allocBlock := none
    data := [[1,2,3,4],[5,6,7,8]] }

/-- A descriptor with null allocate and reallocate pointers, a custom free
function and a context value. -/
def dFix : vvectorAlloc := { malloc_fn := 0, free_fn := 7, realloc_fn := 0, ctx := 42 }

/-- A container for 4-byte elements with two pages allocated but only five
elements live: one whole page is empty. -/
def bufPad : Buffer :=
  { meta := { capacity := 280, length := 5, element_size := 4 }, allocBlock := none
    data := [[0,0,0,0],[1,1,1,1],[2,2,2,2],[3,3,3,3],[4,4,4,4]] }

/-! Helper lemmas. -/

/-- When the buffer is not full, `add_page_if_needed` does nothing and calls
no allocator function, whatever the reallocate outcome would have been. -/
theorem add_page_not_full (b : Buffer) (ok : Bool) (h : is_full b = false) :
    add_page_if_needed b ok = (some b, 0, false) := by
  simp [add_page_if_needed, h]

/-- When the buffer is full and the reallocate call succeeds, one page is
added to the capacity and nothing else changes. -/
theorem add_page_full_ok (b : Buffer) (h : is_full b = true) :
    add_page_if_needed b true =
      (some { b with meta := { b.meta with
          capacity := vec_get_capacity b + NR_ELEM_IN_PAGE * vec_get_element_size b } },
        0, true) := by
  simp [add_page_if_needed, h]

/-- Updating only `capacity` changes neither the element size, the header
size, the custom-allocator flag, the length, nor the data. -/
theorem capacity_update_invariants (b : Buffer) (x : Int) :
    vec_get_element_size { b with meta := { b.meta with capacity := x } } = vec_get_element_size b ∧
    getLengthOfMetadata { b with meta := { b.meta with capacity := x } } = getLengthOfMetadata b ∧
    has_custom_alloc { b with meta := { b.meta with capacity := x } } = has_custom_alloc b ∧
    (get_meta { b with meta := { b.meta with capacity := x } }).length = (get_meta b).length ∧
    ({ b with meta := { b.meta with capacity := x } } : Buffer).data = b.data :=
  ⟨rfl, rfl, rfl, rfl, rfl⟩

/-- `nr_pages_available` recovers the page count from a whole-pages capacity. -/
theorem nr_pages_available_of_cap (b : Buffer) (k : Int)
    (hcap : vec_get_capacity b = getLengthOfMetadata b + k * (NR_ELEM_IN_PAGE * vec_get_element_size b))
    (hes : vec_get_element_size b ≠ 0) :
    nr_pages_available b = k := by
  unfold nr_pages_available
  rw [hcap]
  have h1 : getLengthOfMetadata b + k * (NR_ELEM_IN_PAGE * vec_get_element_size b) -
      getLengthOfMetadata b = k * NR_ELEM_IN_PAGE * vec_get_element_size b := by ring
  rw [h1, Int.mul_tdiv_cancel _ hes,
    Int.mul_tdiv_cancel k (by decide : (NR_ELEM_IN_PAGE : Int) ≠ 0)]

/-- The fixture `fresh4` is well formed. -/
theorem wf_fresh4 : WF fresh4 :=
  ⟨by decide, ⟨0, by decide, by decide⟩, by decide, by decide⟩

/-- The fixture `buf2` is well formed. -/
theorem wf_buf2 : WF buf2 :=
  ⟨by decide, ⟨1, by decide, by decide⟩, by decide, by decide⟩

/-- The fixture `bufPad` is well formed. -/
theorem wf_bufPad : WF bufPad :=
  ⟨by decide, ⟨2, by decide, by decide⟩, by decide, by decide⟩

/-! Claim theorems. -/

/-- C1: the claim says that when the active reallocate function fails during
grow-on-demand or reserve, the prior buffer pointer is left untouched, the
pre-existing buffer is not lost, out-of-memory is reported, and the pending
insertion is aborted.  The code instead assigns the reallocate result into
`*vec` before null-checking it: on failure the prior buffer pointer is
overwritten with NULL (the old block, still allocated, is leaked and the
handle becomes unusable); `vvectorInsertValueAt` moreover ignores
`add_page_if_needed`'s failure code and goes on to dereference the nulled
buffer (undefined behaviour), and `vvectorReserve` returns `VEC_ENOVEC`, the
invalid-handle code, rather than a distinct out-of-memory result.  This
theorem evaluates the embedded code at the failing input: a full container
(a freshly created 4-byte-element vector is exactly full) whose reallocate
call fails. -/
theorem c1_realloc_failure_loses_buffer :
    is_full fresh4 = true ∧
    add_page_if_needed fresh4 false = (none, 1, true) ∧
    vvectorInsertValueAt (VState.valid fresh4) 0 (some [1,2,3,4]) false =
      (VState.undef, 0, true) ∧
    vvectorReserve (VState.valid fresh4) 5 false = (VState.invalid, VEC_ENOVEC, true) := by
  decide

/-- C3: the claim says `get` returns a usable reference iff `0 ≤ index <
length` and a non-dereferenceable "none" for every out-of-range index,
including every negative one.  `index_is_invalid` only checks
`index >= length`, so a negative index passes and `vvectorGetAt` returns a
non-null pointer before the element region (offset `element_size * index`),
contradicting the claim (and `index_is_invalid`'s own documentation that a
valid index lies in `[0, length]`).  Evaluated on a valid 2-element
container: index `-1` yields a non-null result (offset `-4`), while the
upper bound is enforced (`index = length` yields none). -/
theorem c3_negative_index_not_rejected :
    vvectorGetAt (VState.valid buf2) (-1) = some (-4) ∧
    vvectorGetAt (VState.valid buf2) (-1) ≠ none ∧
    vvectorGetAt (VState.valid buf2) 2 = none ∧
    vvectorGetAt (VState.valid buf2) 1 = some 4 := by
  decide

/-- C4: the claim says `0 ≤ length ≤ capacity_in_elements` holds at every
observation point of every operation sequence from a fresh container.  The
missing negative-index check refutes it: on a freshly created 4-byte-element
container, `vvectorRemoveAt(handle, -1)` passes `index_is_invalid`, its
closing `memmove` moves `(0 - (-1) - 1) * 4 = 0` bytes (no store, and the
computed pointer stays inside the allocation), and then `length--` writes
`length = -1` and the call reports success — leaving `length < 0`. -/
theorem c4_invariant_broken_by_negative_remove :
    vec_new_ 4 none true true = some (VState.valid fresh4) ∧
    vvectorRemoveAt (VState.valid fresh4) (-1) =
      (VState.valid { fresh4 with meta := { fresh4.meta with length := -1 } }, 0) ∧
    vvectorGetLength (vvectorRemoveAt (VState.valid fresh4) (-1)).1 = -1 := by
  decide

/-- C2 counterexample: the claim says a rejected `insert_at` (index strictly
greater than length, or null value) leaves length, capacity and element bytes
completely unchanged.  On a full container the grow-on-demand step runs
before any argument validation, so the rejected call grows capacity: on a
fresh 4-byte-element container (capacity 24, length 0), `insert_at(5, v)` is
rejected with `VEC_EBADINDEX` but capacity has grown from 24 to 152 (one
page of 32 elements was added). -/
theorem c2_counterexample_capacity_grows_on_reject :
    (vvectorInsertValueAt (VState.valid fresh4) 5 (some [9,9,9,9]) true).2.1 = VEC_EBADINDEX ∧
    vvector_debug_get_capacity (VState.valid fresh4) = 24 ∧
    vvector_debug_get_capacity
      (vvectorInsertValueAt (VState.valid fresh4) 5 (some [9,9,9,9]) true).1 = 152 := by
  decide

/-- C5 counterexample: the claim says the "nothing to remove" condition of
`remove_back` on an empty container is distinguishable from the out-of-range
(bad-index) error.  The code returns the literal `2` for the empty case,
which is numerically the same value as `VEC_EBADINDEX`, the code
`vvectorRemoveAt` returns for an out-of-range index — the two conditions are
not distinguishable by result value. -/
theorem c5_counterexample_empty_code_equals_badindex :
    (vvectorRemoveBack (VState.valid fresh4)).2 = VEC_EBADINDEX ∧
    (vvectorRemoveAt (VState.valid buf2) 7).2 = VEC_EBADINDEX := by
  decide

/-- C7 counterexample: the claim quantifies over every valid container and
every `n ≥ 0`.  On a container created with `element_size = 0` (which
`vec_new_` accepts), `is_full` is always true, so even after a successful
`reserve(1)` the very next `push_back` invokes the reallocate function (with
an unchanged byte count): the push succeeds, but not "without any
allocate/reallocate/free function being invoked". -/
theorem c7_counterexample_zero_element_size :
    vec_new_ 0 none true true = some (VState.valid (es0Buf [])) ∧
    vvectorReserve (VState.valid (es0Buf [])) 1 true = (VState.valid (es0Buf []), 0, true) ∧
    (pushAll (VState.valid (es0Buf [])) [[]] true).2.1 = true ∧
    (pushAll (VState.valid (es0Buf [])) [[]] true).2.2 = true := by
  decide

/-- C5 amended: `remove_back` on an empty valid container returns the code 2
without modifying the container; that code is distinct from success (0) and
from the invalid-handle code (`VEC_ENOVEC = 1`), but it coincides numerically
with `VEC_EBADINDEX`, so it is distinct from the bad-index error only in the
sense that `remove_back` itself never performs a failing bounds check (its
internal `remove_at(length-1)` call is only made on a non-empty container). -/
theorem c5_amended_empty_reports_two (b : Buffer)
    (hempty : (get_meta b).length = 0) :
    vvectorRemoveBack (VState.valid b) = (VState.valid b, 2) ∧
    (2 : Int) ≠ 0 ∧ (2 : Int) ≠ VEC_ENOVEC ∧ (2 : Int) = VEC_EBADINDEX := by
  refine ⟨?_, by decide, by decide, by decide⟩
  simp [vvectorRemoveBack, vvectorIsEmpty, hempty]

/-- C5 witness: the amended statement evaluated on the fresh empty
4-byte-element container. -/
theorem c5_amended_witness :
    vvectorRemoveBack (VState.valid fresh4) = (VState.valid fresh4, 2) ∧
    (2 : Int) ≠ 0 ∧ (2 : Int) ≠ VEC_ENOVEC ∧ (2 : Int) = VEC_EBADINDEX :=
  c5_amended_empty_reports_two fresh4 (by decide)

/-- C2 amended: a call `insert_at(index, value)` with `index > length` or a
null `value` is rejected (`VEC_EBADINDEX` resp. `VEC_ENOVALUE`) with length
and all element bytes unchanged; however, because the grow-on-demand step
runs before argument validation, the capacity is not necessarily unchanged:
it either stays the same or has grown by exactly one page (the latter when
the container was full and the reallocation succeeded). -/
theorem c2_amended_reject_preserves_contents (b : Buffer) (index : Int)
    (value : Option (List Nat))
    (hbad : (get_meta b).length < index ∨ value = none) :
    ((vvectorInsertValueAt (VState.valid b) index value true).2.1 = VEC_EBADINDEX ∨
     (vvectorInsertValueAt (VState.valid b) index value true).2.1 = VEC_ENOVALUE) ∧
    (vvectorInsertValueAt (VState.valid b) index value true).1 =
      VState.valid (theBuffer (vvectorInsertValueAt (VState.valid b) index value true).1) ∧
    (get_meta (theBuffer (vvectorInsertValueAt (VState.valid b) index value true).1)).length =
      (get_meta b).length ∧
    (theBuffer (vvectorInsertValueAt (VState.valid b) index value true).1).data = b.data ∧
    (vec_get_capacity (theBuffer (vvectorInsertValueAt (VState.valid b) index value true).1) =
        vec_get_capacity b ∨
      vec_get_capacity (theBuffer (vvectorInsertValueAt (VState.valid b) index value true).1) =
        vec_get_capacity b + NR_ELEM_IN_PAGE * vec_get_element_size b) := by
  by_cases hidx : (get_meta b).length < index
  · cases hfull : is_full b
    · simp only [vvectorInsertValueAt, add_page_not_full b true hfull]
      rw [if_pos hidx]
      exact ⟨Or.inl rfl, rfl, rfl, rfl, Or.inl rfl⟩
    · simp only [vvectorInsertValueAt, add_page_full_ok b hfull]
      rw [if_pos (show _ > _ by simpa [get_meta] using hidx)]
      exact ⟨Or.inl rfl, rfl, rfl, rfl, Or.inr rfl⟩
  · have hv : value = none := hbad.resolve_left hidx
    subst hv
    cases hfull : is_full b
    · simp only [vvectorInsertValueAt, add_page_not_full b true hfull]
      rw [if_neg hidx]
      exact ⟨Or.inr rfl, rfl, rfl, rfl, Or.inl rfl⟩
    · simp only [vvectorInsertValueAt, add_page_full_ok b hfull]
      rw [if_neg (show ¬ _ > _ by simpa [get_meta] using hidx)]
      exact ⟨Or.inr rfl, rfl, rfl, rfl, Or.inr rfl⟩

/-- C2 witness: the amended statement on the full fresh container with an
out-of-range index (rejected, contents preserved, capacity grown by a page). -/
theorem c2_amended_witness :
    ((vvectorInsertValueAt (VState.valid fresh4) 5 (some [9,9,9,9]) true).2.1 = VEC_EBADINDEX ∨
     (vvectorInsertValueAt (VState.valid fresh4) 5 (some [9,9,9,9]) true).2.1 = VEC_ENOVALUE) ∧
    (vvectorInsertValueAt (VState.valid fresh4) 5 (some [9,9,9,9]) true).1 =
      VState.valid (theBuffer (vvectorInsertValueAt (VState.valid fresh4) 5 (some [9,9,9,9]) true).1) ∧
    (get_meta (theBuffer (vvectorInsertValueAt (VState.valid fresh4) 5 (some [9,9,9,9]) true).1)).length =
      (get_meta fresh4).length ∧
    (theBuffer (vvectorInsertValueAt (VState.valid fresh4) 5 (some [9,9,9,9]) true).1).data =
      fresh4.data ∧
    (vec_get_capacity (theBuffer (vvectorInsertValueAt (VState.valid fresh4) 5 (some [9,9,9,9]) true).1) =
        vec_get_capacity fresh4 ∨
      vec_get_capacity (theBuffer (vvectorInsertValueAt (VState.valid fresh4) 5 (some [9,9,9,9]) true).1) =
        vec_get_capacity fresh4 + NR_ELEM_IN_PAGE * vec_get_element_size fresh4) :=
  c2_amended_reject_preserves_contents fresh4 5 (some [9,9,9,9]) (Or.inl (by decide))

/-- C6: `shrink_to_fit` is a no-op (no reallocation, code 0) when the number
of allocated pages equals the number of pages needed for the current length;
otherwise (with the reallocation succeeding) it reallocates so that the
capacity afterwards is exactly the header bytes plus `ceil(length / 32)`
pages of element bytes — the allocated pages then equal the used pages — and
the length and all element bytes are unchanged. -/
theorem c6_shrink_to_fit_minimal (b : Buffer) (hwf : WF b)
    (hes : 0 < vec_get_element_size b) :
    (nr_pages_available b = nr_pages_used b →
      vvectorShrinkToFit (VState.valid b) true = (VState.valid b, 0, false)) ∧
    (nr_pages_available b ≠ nr_pages_used b →
      (vvectorShrinkToFit (VState.valid b) true).2.1 = 0 ∧
      (vvectorShrinkToFit (VState.valid b) true).2.2 = true ∧
      (vvectorShrinkToFit (VState.valid b) true).1 =
        VState.valid (theBuffer (vvectorShrinkToFit (VState.valid b) true).1) ∧
      vec_get_capacity (theBuffer (vvectorShrinkToFit (VState.valid b) true).1) =
        getLengthOfMetadata (theBuffer (vvectorShrinkToFit (VState.valid b) true).1) +
          nr_pages_used b * (NR_ELEM_IN_PAGE * vec_get_element_size b) ∧
      nr_pages_available (theBuffer (vvectorShrinkToFit (VState.valid b) true).1) =
        nr_pages_used (theBuffer (vvectorShrinkToFit (VState.valid b) true).1) ∧
      (theBuffer (vvectorShrinkToFit (VState.valid b) true).1).data = b.data ∧
      (get_meta (theBuffer (vvectorShrinkToFit (VState.valid b) true).1)).length =
        (get_meta b).length) := by
  obtain ⟨k, hk0, hcap⟩ := hwf.pages
  have hes0 : vec_get_element_size b ≠ 0 := ne_of_gt hes
  have havail : nr_pages_available b = k := nr_pages_available_of_cap b k hcap hes0
  constructor
  · intro h
    have hno : has_empty_pages b = false := by simp [has_empty_pages, h]
    simp [vvectorShrinkToFit, hno]
  · intro h
    have hne : has_empty_pages b = true := by
      simp [has_empty_pages]
      omega
    have hb2 : vvectorShrinkToFit (VState.valid b) true = (VState.valid { b with meta := { b.meta with capacity := vec_get_capacity b - (nr_pages_available b - nr_pages_used b) * vec_get_element_size b * NR_ELEM_IN_PAGE } }, 0, true) := by
      simp [vvectorShrinkToFit, hne]
    rw [hb2]
    refine ⟨rfl, rfl, rfl, ?_, ?_, rfl, rfl⟩
    · show vec_get_capacity b - (nr_pages_available b - nr_pages_used b) * vec_get_element_size b * NR_ELEM_IN_PAGE = getLengthOfMetadata b + nr_pages_used b * (NR_ELEM_IN_PAGE * vec_get_element_size b)
      rw [havail, hcap]
      ring
    · have hcap2 : vec_get_capacity { b with meta := { b.meta with capacity := vec_get_capacity b - (nr_pages_available b - nr_pages_used b) * vec_get_element_size b * NR_ELEM_IN_PAGE } } = getLengthOfMetadata { b with meta := { b.meta with capacity := vec_get_capacity b - (nr_pages_available b - nr_pages_used b) * vec_get_element_size b * NR_ELEM_IN_PAGE } } + nr_pages_used b * (NR_ELEM_IN_PAGE * vec_get_element_size { b with meta := { b.meta with capacity := vec_get_capacity b - (nr_pages_available b - nr_pages_used b) * vec_get_element_size b * NR_ELEM_IN_PAGE } }) := by
        show vec_get_capacity b - (nr_pages_available b - nr_pages_used b) * vec_get_element_size b * NR_ELEM_IN_PAGE = getLengthOfMetadata b + nr_pages_used b * (NR_ELEM_IN_PAGE * vec_get_element_size b)
        rw [havail, hcap]
        ring
      exact nr_pages_available_of_cap _ (nr_pages_used b) hcap2 hes0

/-- C6 witness: `bufPad` has two pages allocated but only one page used;
shrink-to-fit reallocates down to exactly one page past the header and
preserves the five elements. -/
theorem c6_witness :
    (vvectorShrinkToFit (VState.valid bufPad) true).2.1 = 0 ∧
    (vvectorShrinkToFit (VState.valid bufPad) true).2.2 = true ∧
    (vvectorShrinkToFit (VState.valid bufPad) true).1 =
      VState.valid (theBuffer (vvectorShrinkToFit (VState.valid bufPad) true).1) ∧
    vec_get_capacity (theBuffer (vvectorShrinkToFit (VState.valid bufPad) true).1) =
      getLengthOfMetadata (theBuffer (vvectorShrinkToFit (VState.valid bufPad) true).1) +
        nr_pages_used bufPad * (NR_ELEM_IN_PAGE * vec_get_element_size bufPad) ∧
    nr_pages_available (theBuffer (vvectorShrinkToFit (VState.valid bufPad) true).1) =
      nr_pages_used (theBuffer (vvectorShrinkToFit (VState.valid bufPad) true).1) ∧
    (theBuffer (vvectorShrinkToFit (VState.valid bufPad) true).1).data = bufPad.data ∧
    (get_meta (theBuffer (vvectorShrinkToFit (VState.valid bufPad) true).1)).length =
      (get_meta bufPad).length :=
  (c6_shrink_to_fit_minimal bufPad wf_bufPad (by decide)).2 (by decide)

/-- `length_to_pages` of a nonnegative count is nonnegative. -/
theorem length_to_pages_nonneg (n : Int) (hn : 0 ≤ n) :
    0 ≤ length_to_pages n NR_ELEM_IN_PAGE := by
  have h1 : 0 ≤ Int.tdiv n NR_ELEM_IN_PAGE :=
    Int.tdiv_nonneg hn (by decide)
  unfold length_to_pages
  split <;> omega

/-- `length_to_pages` is a ceiling: the pages it returns hold at least `n`
elements. -/
theorem length_to_pages_mul_ge (n : Int) (hn : 0 ≤ n) :
    n ≤ length_to_pages n NR_ELEM_IN_PAGE * NR_ELEM_IN_PAGE := by
  have hmod := Int.tdiv_add_tmod n NR_ELEM_IN_PAGE
  have hlt : Int.tmod n NR_ELEM_IN_PAGE < NR_ELEM_IN_PAGE :=
    Int.tmod_lt_of_pos n (by decide)
  have hge : 0 ≤ Int.tmod n NR_ELEM_IN_PAGE := Int.tmod_nonneg _ hn
  unfold length_to_pages
  simp only [NR_ELEM_IN_PAGE] at hmod hlt hge ⊢
  split <;> omega

/-- A `push_back` on a container that is not full inserts at the back without
invoking any allocator function. -/
theorem pushBack_not_full_spec (b : Buffer)
    (hdata : (b.data.length : Int) = (get_meta b).length)
    (hnf : is_full b = false) (v : List Nat) (ok : Bool) :
    vvectorPushBack (VState.valid b) (some v) ok =
      (VState.valid { b with meta := { b.meta with length := (get_meta b).length + 1 }, data := b.data ++ [v.take (vec_get_element_size b).toNat] }, 0, false) := by
  have hlen0 : 0 ≤ (get_meta b).length := by omega
  have hnat : (get_meta b).length.toNat = b.data.length := by omega
  simp only [vvectorPushBack, vvectorInsertValueAt, add_page_not_full b ok hnf]
  rw [if_neg (lt_irrefl (get_meta b).length), if_neg (by omega : ¬ (get_meta b).length < 0)]
  rw [hnat, List.take_length, List.drop_length]
  simp

/-- Pushing a list of values one by one onto a well-formed container with
positive element size and enough slack capacity: every push succeeds and no
allocator function is ever invoked. -/
theorem pushAll_no_alloc_spec (ok : Bool) (vs : List (List Nat)) :
    ∀ b : Buffer, WF b → 0 < vec_get_element_size b →
      ((get_meta b).length + (vs.length : Int)) * vec_get_element_size b ≤
        vec_get_capacity b - getLengthOfMetadata b →
      (pushAll (VState.valid b) vs ok).2.1 = true ∧
      (pushAll (VState.valid b) vs ok).2.2 = false := by
  induction vs with
  | nil => intro b _ _ _; exact ⟨rfl, rfl⟩
  | cons v rest ih =>
    intro b hwf hes hroom
    have hesnn : 0 ≤ vec_get_element_size b := le_of_lt hes
    have hLnn : (0 : Int) ≤ (rest.length : Int) := Int.ofNat_nonneg _
    have hexp : ((get_meta b).length + ((v :: rest).length : Int)) * vec_get_element_size b = (get_meta b).length * vec_get_element_size b + (rest.length : Int) * vec_get_element_size b + vec_get_element_size b := by
      push_cast [List.length_cons]
      ring
    rw [hexp] at hroom
    have hrestnn : 0 ≤ (rest.length : Int) * vec_get_element_size b :=
      mul_nonneg hLnn hesnn
    have hlt : (get_meta b).length * vec_get_element_size b <
        vec_get_capacity b - getLengthOfMetadata b := by linarith
    have hnf : is_full b = false := by
      simp only [is_full, decide_eq_false_iff_not]
      intro hc
      linarith
    have hstep := pushBack_not_full_spec b hwf.data_len hnf v ok
    have hwf2 : WF { b with meta := { b.meta with length := (get_meta b).length + 1 }, data := b.data ++ [v.take (vec_get_element_size b).toNat] } := by
      refine ⟨?_, hwf.pages, ?_, hwf.alloc_some⟩
      · show ((b.data ++ [v.take (vec_get_element_size b).toNat]).length : Int) =
          (get_meta b).length + 1
        have hd := hwf.data_len
        simp only [List.length_append, List.length_cons, List.length_nil]
        omega
      · show ((get_meta b).length + 1) * vec_get_element_size b ≤
          vec_get_capacity b - getLengthOfMetadata b
        have hr : ((get_meta b).length + 1) * vec_get_element_size b =
            (get_meta b).length * vec_get_element_size b + vec_get_element_size b := by ring
        linarith
    have hroom2 : ((get_meta { b with meta := { b.meta with length := (get_meta b).length + 1 }, data := b.data ++ [v.take (vec_get_element_size b).toNat] }).length + (rest.length : Int)) * vec_get_element_size b ≤
        vec_get_capacity b - getLengthOfMetadata b := by
      show ((get_meta b).length + 1 + (rest.length : Int)) * vec_get_element_size b ≤ _
      have hr : ((get_meta b).length + 1 + (rest.length : Int)) * vec_get_element_size b =
          (get_meta b).length * vec_get_element_size b +
            (rest.length : Int) * vec_get_element_size b + vec_get_element_size b := by ring
      linarith
    obtain ⟨ih1, ih2⟩ := ih _ hwf2 hes hroom2
    simp only [pushAll, hstep]
    exact ⟨by simp [ih1], by simp [ih2]⟩

/-- C7 amended: for every well-formed container with positive element size
and every `n ≥ 0`, after a successful `reserve(n)` — which grows capacity
additively by `length_to_pages n 32 * 32 * element_size` bytes — at least `n`
subsequent `push_back` calls succeed without any allocate/reallocate/free
function being invoked; a negative `n` is rejected (code 1) without touching
the container or calling the allocator.  (The positive-element-size
restriction is forced by the counterexample: on a zero-element-size
container every push invokes the reallocate function.) -/
theorem c7_amended_reserve_additive_sufficient (b : Buffer) (hwf : WF b)
    (hes : 0 < vec_get_element_size b) (n : Int) (vs : List (List Nat)) (ok : Bool) :
    (0 ≤ n → (vs.length : Int) ≤ n →
      (vvectorReserve (VState.valid b) n true).2.1 = 0 ∧
      (vvectorReserve (VState.valid b) n true).1 = VState.valid (theBuffer (vvectorReserve (VState.valid b) n true).1) ∧
      vec_get_capacity (theBuffer (vvectorReserve (VState.valid b) n true).1) =
        vec_get_capacity b + length_to_pages n NR_ELEM_IN_PAGE * vec_get_element_size b * NR_ELEM_IN_PAGE ∧
      (pushAll (vvectorReserve (VState.valid b) n true).1 vs ok).2.1 = true ∧
      (pushAll (vvectorReserve (VState.valid b) n true).1 vs ok).2.2 = false) ∧
    (n < 0 → vvectorReserve (VState.valid b) n ok = (VState.valid b, 1, false)) := by
  constructor
  · intro hn hvs
    have hres : vvectorReserve (VState.valid b) n true = (VState.valid { b with meta := { b.meta with capacity := length_to_pages n NR_ELEM_IN_PAGE * vec_get_element_size b * NR_ELEM_IN_PAGE + vec_get_capacity b } }, 0, true) := by
      simp [vvectorReserve, not_lt.mpr hn]
    rw [hres]
    obtain ⟨k, hk0, hcap⟩ := hwf.pages
    have hesnn : 0 ≤ vec_get_element_size b := le_of_lt hes
    have hpnn : 0 ≤ length_to_pages n NR_ELEM_IN_PAGE := length_to_pages_nonneg n hn
    have hpge : n ≤ length_to_pages n NR_ELEM_IN_PAGE * NR_ELEM_IN_PAGE :=
      length_to_pages_mul_ge n hn
    have hwf2 : WF { b with meta := { b.meta with capacity := length_to_pages n NR_ELEM_IN_PAGE * vec_get_element_size b * NR_ELEM_IN_PAGE + vec_get_capacity b } } := by
      refine ⟨hwf.data_len, ⟨k + length_to_pages n NR_ELEM_IN_PAGE, by omega, ?_⟩, ?_, hwf.alloc_some⟩
      · show length_to_pages n NR_ELEM_IN_PAGE * vec_get_element_size b * NR_ELEM_IN_PAGE + vec_get_capacity b = getLengthOfMetadata b + (k + length_to_pages n NR_ELEM_IN_PAGE) * (NR_ELEM_IN_PAGE * vec_get_element_size b)
        rw [hcap]
        ring
      · show (get_meta b).length * vec_get_element_size b ≤
          length_to_pages n NR_ELEM_IN_PAGE * vec_get_element_size b * NR_ELEM_IN_PAGE + vec_get_capacity b - getLengthOfMetadata b
        have hfits := hwf.fits
        have hprod : 0 ≤ length_to_pages n NR_ELEM_IN_PAGE * vec_get_element_size b * NR_ELEM_IN_PAGE :=
          mul_nonneg (mul_nonneg hpnn hesnn) (by decide)
        linarith
    have hroom2 : ((get_meta { b with meta := { b.meta with capacity := length_to_pages n NR_ELEM_IN_PAGE * vec_get_element_size b * NR_ELEM_IN_PAGE + vec_get_capacity b } }).length + (vs.length : Int)) * vec_get_element_size b ≤
        vec_get_capacity { b with meta := { b.meta with capacity := length_to_pages n NR_ELEM_IN_PAGE * vec_get_element_size b * NR_ELEM_IN_PAGE + vec_get_capacity b } } -
          getLengthOfMetadata { b with meta := { b.meta with capacity := length_to_pages n NR_ELEM_IN_PAGE * vec_get_element_size b * NR_ELEM_IN_PAGE + vec_get_capacity b } } := by
      show ((get_meta b).length + (vs.length : Int)) * vec_get_element_size b ≤
        length_to_pages n NR_ELEM_IN_PAGE * vec_get_element_size b * NR_ELEM_IN_PAGE + vec_get_capacity b - getLengthOfMetadata b
      have hfits := hwf.fits
      have h1 : (vs.length : Int) * vec_get_element_size b ≤ n * vec_get_element_size b :=
        mul_le_mul_of_nonneg_right hvs hesnn
      have h2 : n * vec_get_element_size b ≤
          length_to_pages n NR_ELEM_IN_PAGE * NR_ELEM_IN_PAGE * vec_get_element_size b :=
        mul_le_mul_of_nonneg_right hpge hesnn
      have hr : ((get_meta b).length + (vs.length : Int)) * vec_get_element_size b =
          (get_meta b).length * vec_get_element_size b +
            (vs.length : Int) * vec_get_element_size b := by ring
      have hr2 : length_to_pages n NR_ELEM_IN_PAGE * NR_ELEM_IN_PAGE * vec_get_element_size b =
          length_to_pages n NR_ELEM_IN_PAGE * vec_get_element_size b * NR_ELEM_IN_PAGE := by ring
      linarith
    obtain ⟨hp1, hp2⟩ := pushAll_no_alloc_spec ok vs _ hwf2 hes hroom2
    refine ⟨rfl, rfl, ?_, hp1, hp2⟩
    show length_to_pages n NR_ELEM_IN_PAGE * vec_get_element_size b * NR_ELEM_IN_PAGE + vec_get_capacity b = _
    ring
  · intro hneg
    simp [vvectorReserve, hneg]

/-- C7 witness: on the fresh 4-byte-element container, `reserve(1)` succeeds
(adding one page) and one subsequent push succeeds with no allocator call. -/
theorem c7_amended_witness :
    (vvectorReserve (VState.valid fresh4) 1 true).2.1 = 0 ∧
    (vvectorReserve (VState.valid fresh4) 1 true).1 = VState.valid (theBuffer (vvectorReserve (VState.valid fresh4) 1 true).1) ∧
    vec_get_capacity (theBuffer (vvectorReserve (VState.valid fresh4) 1 true).1) =
      vec_get_capacity fresh4 + length_to_pages 1 NR_ELEM_IN_PAGE * vec_get_element_size fresh4 * NR_ELEM_IN_PAGE ∧
    (pushAll (vvectorReserve (VState.valid fresh4) 1 true).1 [[1,2,3,4]] true).2.1 = true ∧
    (pushAll (vvectorReserve (VState.valid fresh4) 1 true).1 [[1,2,3,4]] true).2.2 = false :=
  (c7_amended_reserve_additive_sufficient fresh4 wf_fresh4 (by decide) 1 [[1,2,3,4]] true).1
    (by decide) (by decide)

/-- Removing at `i` the element just inserted at `i` restores the buffer
exactly: length is back and every other element's bytes are untouched. -/
theorem remove_undoes_insert (cap len esz : Int) (ab : Option vvectorAlloc)
    (dat : List (List Nat)) (x : List Nat) (i : Int)
    (hdata : (dat.length : Int) = len) (hi0 : 0 ≤ i) (hile : i ≤ len) :
    vvectorRemoveAt (VState.valid { meta := { capacity := cap, length := len + 1, element_size := esz }, allocBlock := ab, data := dat.take i.toNat ++ [x] ++ dat.drop i.toNat }) i =
      (VState.valid { meta := { capacity := cap, length := len, element_size := esz }, allocBlock := ab, data := dat }, 0) := by
  have hnt : i.toNat ≤ dat.length := by omega
  have hc1 : ¬ (i ≥ len + 1) := by omega
  have hc2 : ¬ (i < 0) := by omega
  have htake : (dat.take i.toNat ++ x :: dat.drop i.toNat).take i.toNat = dat.take i.toNat := by
    rw [List.take_left']
    rw [List.length_take]
    omega
  have hdrop : (dat.take i.toNat ++ x :: dat.drop i.toNat).drop (i.toNat + 1) = dat.drop i.toNat := by
    rw [show dat.take i.toNat ++ x :: dat.drop i.toNat = (dat.take i.toNat ++ [x]) ++ dat.drop i.toNat by simp]
    rw [List.drop_left']
    rw [List.length_append, List.length_take]
    simp
    omega
  simp [vvectorRemoveAt, index_is_invalid, get_meta, hc1, hc2, htake, hdrop,
    List.take_append_drop]

/-- C8: on a well-formed container, for every `0 ≤ i ≤ length` and every
non-null value `v` (with the grow step's reallocation, if triggered,
succeeding), `insert_at(i, v)` succeeds and an immediate `remove_at(i)`
succeeds, restores the prior length, and leaves the whole element region
byte-for-byte identical to the original. -/
theorem c8_insert_remove_inverse (b : Buffer) (hwf : WF b) (i : Int)
    (hi0 : 0 ≤ i) (hile : i ≤ (get_meta b).length) (v : List Nat) :
    (vvectorInsertValueAt (VState.valid b) i (some v) true).2.1 = 0 ∧
    (vvectorRemoveAt (vvectorInsertValueAt (VState.valid b) i (some v) true).1 i).2 = 0 ∧
    vvectorGetLength (vvectorRemoveAt (vvectorInsertValueAt (VState.valid b) i (some v) true).1 i).1 = (get_meta b).length ∧
    (vvectorRemoveAt (vvectorInsertValueAt (VState.valid b) i (some v) true).1 i).1 = VState.valid (theBuffer (vvectorRemoveAt (vvectorInsertValueAt (VState.valid b) i (some v) true).1 i).1) ∧
    (theBuffer (vvectorRemoveAt (vvectorInsertValueAt (VState.valid b) i (some v) true).1 i).1).data = b.data := by
  have hdata := hwf.data_len
  obtain ⟨⟨cap, len, esz⟩, ab, dat⟩ := b
  simp only [get_meta] at hdata hile
  cases hfull : is_full ⟨⟨cap, len, esz⟩, ab, dat⟩
  · have hins : vvectorInsertValueAt (VState.valid ⟨⟨cap, len, esz⟩, ab, dat⟩) i (some v) true = (VState.valid { meta := { capacity := cap, length := len + 1, element_size := esz }, allocBlock := ab, data := dat.take i.toNat ++ [v.take (vec_get_element_size ⟨⟨cap, len, esz⟩, ab, dat⟩).toNat] ++ dat.drop i.toNat }, 0, false) := by
      simp only [vvectorInsertValueAt, add_page_not_full _ true hfull, get_meta]
      rw [if_neg (not_lt.mpr hile), if_neg (not_lt.mpr hi0)]
    rw [hins]
    dsimp only
    rw [remove_undoes_insert cap len esz ab dat _ i hdata hi0 hile]
    exact ⟨rfl, rfl, rfl, rfl, rfl⟩
  · have hins : vvectorInsertValueAt (VState.valid ⟨⟨cap, len, esz⟩, ab, dat⟩) i (some v) true = (VState.valid { meta := { capacity := cap + NR_ELEM_IN_PAGE * vec_get_element_size ⟨⟨cap, len, esz⟩, ab, dat⟩, length := len + 1, element_size := esz }, allocBlock := ab, data := dat.take i.toNat ++ [v.take (vec_get_element_size { meta := { capacity := cap + NR_ELEM_IN_PAGE * vec_get_element_size ⟨⟨cap, len, esz⟩, ab, dat⟩, length := len, element_size := esz }, allocBlock := ab, data := dat }).toNat] ++ dat.drop i.toNat }, 0, true) := by
      simp only [vvectorInsertValueAt, add_page_full_ok _ hfull, get_meta, vec_get_capacity]
      rw [if_neg (not_lt.mpr hile), if_neg (not_lt.mpr hi0)]
    rw [hins]
    dsimp only
    rw [remove_undoes_insert (cap + NR_ELEM_IN_PAGE * vec_get_element_size ⟨⟨cap, len, esz⟩, ab, dat⟩) len esz ab dat _ i hdata hi0 hile]
    exact ⟨rfl, rfl, rfl, rfl, rfl⟩

/-- C8 witness: insert `[7,7,7,7]` at index 1 of the two-element container,
then remove index 1: length and all element bytes are restored. -/
theorem c8_witness :
    (vvectorInsertValueAt (VState.valid buf2) 1 (some [7,7,7,7]) true).2.1 = 0 ∧
    (vvectorRemoveAt (vvectorInsertValueAt (VState.valid buf2) 1 (some [7,7,7,7]) true).1 1).2 = 0 ∧
    vvectorGetLength (vvectorRemoveAt (vvectorInsertValueAt (VState.valid buf2) 1 (some [7,7,7,7]) true).1 1).1 = (get_meta buf2).length ∧
    (vvectorRemoveAt (vvectorInsertValueAt (VState.valid buf2) 1 (some [7,7,7,7]) true).1 1).1 = VState.valid (theBuffer (vvectorRemoveAt (vvectorInsertValueAt (VState.valid buf2) 1 (some [7,7,7,7]) true).1 1).1) ∧
    (theBuffer (vvectorRemoveAt (vvectorInsertValueAt (VState.valid buf2) 1 (some [7,7,7,7]) true).1 1).1).data = buf2.data :=
  c8_insert_remove_inverse buf2 wf_buf2 1 (by decide) (by decide) [7,7,7,7]

/-- C9 amended: constructing with an allocator descriptor and a positive
element size stores, once at creation time, a by-value copy of the descriptor
in which each null function pointer has individually been replaced by the
corresponding library default; the container's resolved
allocate/deallocate/reallocate functions and context are exactly those
normalized creation-time values — they are determined by the descriptor's
contents at creation, so no later mutation of the caller's original
descriptor can affect them.  (The positive-element-size restriction is forced
by the counterexample below: with element size 0 the negated sign flag is
lost and resolution ignores the embedded descriptor.) -/
theorem c9_descriptor_copied_once_normalized (t : Int) (ht : 0 < t) (d : vvectorAlloc) :
    vec_new_ t (some d) true true = some (VState.valid (createdWithAlloc t d)) ∧
    (createdWithAlloc t d).allocBlock = some (normalizeAlloc d) ∧
    get_malloc (createdWithAlloc t d) = (if d.malloc_fn = 0 then LIB_MALLOC else d.malloc_fn) ∧
    get_free (createdWithAlloc t d) = (if d.free_fn = 0 then LIB_FREE else d.free_fn) ∧
    get_realloc (createdWithAlloc t d) = (if d.realloc_fn = 0 then LIB_REALLOC else d.realloc_fn) ∧
    resolve_ctx (createdWithAlloc t d) = d.ctx := by
  have hneg : ¬ t < 0 := by omega
  have hlt : -t < 0 := by omega
  refine ⟨?_, rfl, ?_, ?_, ?_, ?_⟩
  · simp [vec_new_, hneg, createdWithAlloc]
  · simp [get_malloc, has_custom_alloc, get_meta, createdWithAlloc, normalizeAlloc, hlt]
  · simp [get_free, has_custom_alloc, get_meta, createdWithAlloc, normalizeAlloc, hlt]
  · simp [get_realloc, has_custom_alloc, get_meta, createdWithAlloc, normalizeAlloc, hlt]
  · simp [resolve_ctx, has_custom_alloc, get_meta, createdWithAlloc, normalizeAlloc, hlt]

/-- C9 witness: creating a 4-byte-element container with `dFix` (null
allocate, free = 7, null reallocate, ctx = 42) resolves to the library
allocate, the custom free, the library reallocate, and ctx 42. -/
theorem c9_witness :
    vec_new_ 4 (some dFix) true true = some (VState.valid (createdWithAlloc 4 dFix)) ∧
    (createdWithAlloc 4 dFix).allocBlock = some (normalizeAlloc dFix) ∧
    get_malloc (createdWithAlloc 4 dFix) = (if dFix.malloc_fn = 0 then LIB_MALLOC else dFix.malloc_fn) ∧
    get_free (createdWithAlloc 4 dFix) = (if dFix.free_fn = 0 then LIB_FREE else dFix.free_fn) ∧
    get_realloc (createdWithAlloc 4 dFix) = (if dFix.realloc_fn = 0 then LIB_REALLOC else dFix.realloc_fn) ∧
    resolve_ctx (createdWithAlloc 4 dFix) = dFix.ctx :=
  c9_descriptor_copied_once_normalized 4 (by decide) dFix

/-- A `push_back` on a zero-element-size default-allocator container: the
container is always exactly full, so the grow step invokes the reallocate
function with a zero-byte increase; the push succeeds, appending a zero-byte
element, and capacity stays at the header size. -/
theorem pushBack_es0_step (l : List (List Nat)) (v : List Nat) :
    vvectorPushBack (VState.valid (es0Buf l)) (some v) true =
      (VState.valid (es0Buf (l ++ [[]])), 0, true) := by
  have hfull : is_full (es0Buf l) = true := by
    simp [is_full, es0Buf, get_meta, vec_get_capacity, vec_get_element_size, getLengthOfMetadata]
  simp only [vvectorPushBack, vvectorInsertValueAt, add_page_full_ok _ hfull]
  simp [es0Buf, get_meta, vec_get_capacity, vec_get_element_size, Int.toNat_natCast,
    List.take_length, List.drop_length]

/-- Pushing values one by one onto a zero-element-size container: every push
succeeds, each appends a zero-byte element, and (when at least one value is
pushed) the reallocate function is invoked. -/
theorem pushAll_es0_spec (vs : List (List Nat)) :
    ∀ l : List (List Nat),
      (pushAll (VState.valid (es0Buf l)) vs true).1 =
        VState.valid (es0Buf (l ++ List.replicate vs.length [])) ∧
      (pushAll (VState.valid (es0Buf l)) vs true).2.1 = true ∧
      (vs = [] ∨ (pushAll (VState.valid (es0Buf l)) vs true).2.2 = true) := by
  induction vs with
  | nil =>
    intro l
    refine ⟨?_, rfl, Or.inl rfl⟩
    simp [pushAll]
  | cons v rest ih =>
    intro l
    obtain ⟨ih1, ih2, _⟩ := ih (l ++ [[]])
    simp only [pushAll, pushBack_es0_step]
    refine ⟨?_, ?_, Or.inr ?_⟩
    · show (pushAll (VState.valid (es0Buf (l ++ [[]]))) rest true).1 = _
      rw [ih1]
      have hl : (l ++ [[]]) ++ List.replicate rest.length [] =
          l ++ List.replicate (v :: rest).length [] := by
        simp [List.replicate_succ, List.append_assoc]
      rw [hl]
    · show (decide ((0 : Int) = 0) && (pushAll (VState.valid (es0Buf (l ++ [[]]))) rest true).2.1) = true
      rw [ih2]
      decide
    · show (true || (pushAll (VState.valid (es0Buf (l ++ [[]]))) rest true).2.2) = true
      simp

/-- C10: `vec_new_` rejects only a strictly negative element size (returning
the null handle), and accepts `element_size = 0`, producing a valid empty
container whose capacity is the bare header size; on that container every
`push_back` of a non-null value succeeds — each one growing length by one
while the grow step's zero-byte reallocation keeps capacity equal to the
header size forever — and any non-empty push sequence invokes the reallocate
function. -/
theorem c10_zero_element_size (t : Int) (ht : t < 0) (a : Option vvectorAlloc)
    (o1 o2 : Bool) (vs : List (List Nat)) :
    vec_new_ t a o1 o2 = none ∧
    vec_new_ 0 none true true = some (VState.valid (es0Buf [])) ∧
    (pushAll (VState.valid (es0Buf [])) vs true).2.1 = true ∧
    vvectorGetLength (pushAll (VState.valid (es0Buf [])) vs true).1 = (vs.length : Int) ∧
    vvector_debug_get_capacity (pushAll (VState.valid (es0Buf [])) vs true).1 = META_SIZE ∧
    (vs ≠ [] → (pushAll (VState.valid (es0Buf [])) vs true).2.2 = true) := by
  obtain ⟨h1, h2, h3⟩ := pushAll_es0_spec vs []
  refine ⟨?_, by decide, h2, ?_, ?_, ?_⟩
  · simp [vec_new_, ht]
  · rw [h1]
    simp [vvectorGetLength, es0Buf, get_meta]
  · rw [h1]
    simp [vvector_debug_get_capacity, es0Buf, get_meta]
  · intro hne
    rcases h3 with h | h
    · exact absurd h hne
    · exact h

/-- C10 witness: creation with element size `-3` is rejected; a
zero-element-size container accepts two pushes, reaching length 2 with
capacity still 24 (the header size), the reallocate function having been
invoked. -/
theorem c10_witness :
    vec_new_ (-3) none true true = none ∧
    vec_new_ 0 none true true = some (VState.valid (es0Buf [])) ∧
    (pushAll (VState.valid (es0Buf [])) [[5],[6]] true).2.1 = true ∧
    vvectorGetLength (pushAll (VState.valid (es0Buf [])) [[5],[6]] true).1 = (([[5],[6]] : List (List Nat)).length : Int) ∧
    vvector_debug_get_capacity (pushAll (VState.valid (es0Buf [])) [[5],[6]] true).1 = META_SIZE ∧
    (([[5],[6]] : List (List Nat)) ≠ [] → (pushAll (VState.valid (es0Buf [])) [[5],[6]] true).2.2 = true) :=
  c10_zero_element_size (-3) (by decide) none true true [[5],[6]]

/-- C9 counterexample: constructing with a descriptor and `element_size = 0`
(accepted by `vec_new_`, cf. C10) stores `element_size = -0 = 0`, losing the
custom-allocator sign flag.  The normalized descriptor is still copied into
the buffer, but the container's resolved functions are the library defaults
and its resolved context is null — not the embedded descriptor's free
function (7) and context (42) — refuting the unrestricted claim that the
resolved functions and context of the container are the normalized
creation-time descriptor values. -/
theorem c9_counterexample_zero_size_loses_flag :
    vec_new_ 0 (some dFix) true true = some (VState.valid (createdWithAlloc 0 dFix)) ∧
    (createdWithAlloc 0 dFix).allocBlock = some (normalizeAlloc dFix) ∧
    has_custom_alloc (createdWithAlloc 0 dFix) = false ∧
    get_malloc (createdWithAlloc 0 dFix) = LIB_MALLOC ∧
    get_free (createdWithAlloc 0 dFix) = LIB_FREE ∧
    get_free (createdWithAlloc 0 dFix) ≠ (normalizeAlloc dFix).free_fn ∧
    get_realloc (createdWithAlloc 0 dFix) = LIB_REALLOC ∧
    resolve_ctx (createdWithAlloc 0 dFix) = 0 ∧
    resolve_ctx (createdWithAlloc 0 dFix) ≠ dFix.ctx := by
  decide
